import Mathlib

/-!
Shallow embedding of the scale-down core of the escalator controller:
node ranking, the Tainter loop `taintOldestN`, the Grace-Period Reaper
`TryRemoveTaintedNodes`, the clamp and fail-safe sequencing of
`scaleDownTaint`, and the orchestrating `ScaleDown`.

External collaborators (the `k8s` package primitives, the ASG deletion
backend, the fail-safe lock) are modelled as boolean/function oracles passed
in as parameters; timestamps and durations are modelled as integers.
-/

namespace Escalator

/-- A cluster node as the Tainter sees it: its identity and creation
timestamp (`time.Time` modelled as integer ticks). -/
structure Node where
  name : String
  creationTime : Int
deriving Repr, DecidableEq

/-- `nodeIndexBundle` pairs a node with its original position in the input
slice, so the indices returned by `taintOldestN` refer to the caller's
ordering rather than the sorted one. -/
structure nodeIndexBundle where
  node : Node
  index : Nat
deriving Repr, DecidableEq

/-- Modelled from the spec: the comparator of `nodesByOldestCreationTime`
(its sort interface implementation lives outside the shown source files);
spec section 4.1: the ranking is oldest-first by creation timestamp. -/
def oldestFirst (a b : nodeIndexBundle) : Prop :=
  a.node.creationTime ≤ b.node.creationTime

instance : DecidableRel oldestFirst :=
  fun a b => inferInstanceAs (Decidable (a.node.creationTime ≤ b.node.creationTime))

instance : IsTotal nodeIndexBundle oldestFirst :=
  ⟨fun a b => Int.le_total a.node.creationTime b.node.creationTime⟩

instance : IsTrans nodeIndexBundle oldestFirst :=
  ⟨fun _ _ _ hab hbc => le_trans hab hbc⟩

/-- The ranking built at the top of `taintOldestN`: bundle every node with
its index in the input list, then sort oldest-first (Go `sort.Sort` on
`nodesByOldestCreationTime`, modelled by insertion sort; only sortedness and
the permutation property are relied upon, matching the unspecified tie
order of the unstable Go sort). -/
def rank (nodes : List Node) : List nodeIndexBundle :=
  List.insertionSort oldestFirst (nodes.enum.map fun p => ⟨p.2, p.1⟩)

/-- Observable effects and result of one `taintOldestN` invocation:
the returned original-list indices, the names appended to the node group's
dry-run `taintTracker`, the number of `IncrementTaintCount` calls, the names
for which a real `AddToBeRemovedTaint` call was issued, and the number of
ranked candidates examined by the walk (the loop index `i`). -/
structure TaintResult where
  taintedIndices : List Nat
  trackerAppends : List String
  dryIncrements : Nat
  realTaintCalls : List String
  examined : Nat
deriving Repr, DecidableEq

/-- The state at loop entry: nothing tainted, tracked or examined. -/
def TaintResult.initial : TaintResult :=
  { taintedIndices := []
    trackerAppends := []
    dryIncrements := 0
    realTaintCalls := []
    examined := 0 }

/-- The walk of `taintOldestN` over the sorted candidates. `dry` is the
node group's dry mode, `taintOk` the oracle telling whether the external
`AddToBeRemovedTaint` call succeeds for a node name, `maxTaints` the global
`k8s.MaximumTaints` scan ceiling, `n` the requested count. `acc.examined`
plays the role of the Go range index `i` over the sorted slice. -/
def taintLoop (dry : Bool) (taintOk : String → Bool) (maxTaints : Nat) (n : Int) :
    List nodeIndexBundle → TaintResult → TaintResult
  | [], acc => acc
  | b :: rest, acc =>
    if (acc.taintedIndices.length : Int) ≥ n ∨ acc.examined ≥ maxTaints then
      acc
    else
      if !dry then
        if taintOk b.node.name then
          taintLoop dry taintOk maxTaints n rest
            { acc with
              taintedIndices := acc.taintedIndices ++ [b.index]
              realTaintCalls := acc.realTaintCalls ++ [b.node.name]
              examined := acc.examined + 1 }
        else
          taintLoop dry taintOk maxTaints n rest
            { acc with
              realTaintCalls := acc.realTaintCalls ++ [b.node.name]
              examined := acc.examined + 1 }
      else
        taintLoop dry taintOk maxTaints n rest
          { acc with
            taintedIndices := acc.taintedIndices ++ [b.index]
            trackerAppends := acc.trackerAppends ++ [b.node.name]
            dryIncrements := acc.dryIncrements + 1
            examined := acc.examined + 1 }

/-- `taintOldestN` sorts the nodes by creation time and taints (or, in dry
mode, simulates tainting) the oldest `n`, bounded by the scan ceiling. -/
def taintOldestN (dry : Bool) (taintOk : String → Bool) (maxTaints : Nat)
    (nodes : List Node) (n : Int) : TaintResult :=
  taintLoop dry taintOk maxTaints n (rank nodes) TaintResult.initial

/-- A currently tainted node as the Reaper sees it: its name, the
removal-intent timestamp read by `k8s.GetToBeRemovedTime` (`none` models
both a read error and a nil timestamp), and the per-node oracles for
`k8s.NodeEmpty` and for the success of `k8s.Cordon`. -/
structure TaintedNode where
  name : String
  taintedTime : Option Int
  isEmpty : Bool
  cordonOk : Bool
deriving Repr, DecidableEq

/-- Per-node-group configuration consulted by the scale-down core. -/
structure NodeGroupOpts where
  name : String
  minNodes : Int
  softDeleteGracePeriod : Int
  hardDeleteGracePeriod : Int
deriving Repr, DecidableEq

/-- The per-cycle `scaleOpts` value: tainted and untainted node lists, the
requested delta, and the owning group's configuration. -/
structure scaleOpts where
  taintedNodes : List TaintedNode
  untaintedNodes : List Node
  nodesDelta : Int
  nodeGroupOpts : NodeGroupOpts
deriving Repr, DecidableEq

/-- Observable result of `TryRemoveTaintedNodes`: the accumulated deletion
batch `toBeDeleted` (by node name), the names for which a real `k8s.Cordon`
call was issued, the returned delete-request count, and the returned error
value. -/
structure ReaperResult where
  toBeDeleted : List String
  cordonCalls : List String
  deleteRequested : Nat
  err : Option String
deriving Repr, DecidableEq

/-- The Reaper's accumulator at loop entry: empty batch, no cordon calls. -/
def ReaperResult.initial : ReaperResult :=
  { toBeDeleted := [], cordonCalls := [], deleteRequested := 0, err := none }

/-- The per-candidate eligibility test of `TryRemoveTaintedNodes`: the time
elapsed since tainting must exceed the soft grace period, and the node must
be empty of user workload or the elapsed time must also exceed the hard
grace period. -/
def reaperEligible (elapsed soft hard : Int) (isEmpty : Bool) : Bool :=
  decide (elapsed > soft) && (isEmpty || decide (elapsed > hard))

/-- One iteration of the `TryRemoveTaintedNodes` candidate loop, threading
the accumulated state. A candidate without a readable removal-intent
timestamp is skipped; an eligible candidate is cordoned and appended to the
deletion batch unless dry mode is on or the cordon fails. -/
def reaperStep (dry : Bool) (now soft hard : Int)
    (acc : ReaperResult) (c : TaintedNode) : ReaperResult :=
  match c.taintedTime with
  | none => acc
  | some t =>
    if now - t > soft then
      if c.isEmpty ∨ now - t > hard then
        if !dry then
          if c.cordonOk then
            { acc with
              cordonCalls := acc.cordonCalls ++ [c.name]
              toBeDeleted := acc.toBeDeleted ++ [c.name] }
          else
            { acc with cordonCalls := acc.cordonCalls ++ [c.name] }
        else
          acc
      else
        acc
    else
      acc

/-- `TryRemoveTaintedNodes`: scan the tainted candidates, cordon and batch
the eligible ones, then issue one batched `ASG.DeleteNodes` request.
`deleteOk` is the oracle for that backend call; its failure is only logged,
so the function always returns the batch length and a nil error. -/
def TryRemoveTaintedNodes (dry deleteOk : Bool) (now : Int)
    (opts : scaleOpts) : ReaperResult :=
  let soft := opts.nodeGroupOpts.softDeleteGracePeriod
  let hard := opts.nodeGroupOpts.hardDeleteGracePeriod
  let scanned := opts.taintedNodes.foldl (reaperStep dry now soft hard)
    ReaperResult.initial
  { scanned with
    deleteRequested := scanned.toBeDeleted.length
    err := none }

/-- The error values `scaleDownTaint` can return. -/
inductive ScaleErr
  | belowMinimum
  | failSafeBegin
  | failSafeEnd
deriving Repr, DecidableEq

/-- Observable result of `scaleDownTaint`: the returned count and error,
the effects of the inner `taintOldestN` call (`TaintResult.initial` when it
was never reached), and the `nodesToRemove` value in force at the metrics
and fail-safe point (`none` when the cycle aborted before it). -/
structure ScaleDownResult where
  count : Nat
  err : Option ScaleErr
  taint : TaintResult
  planned : Option Int
deriving Repr, DecidableEq

/-- The clamped `nodesToRemove` of `scaleDownTaint`: the requested delta,
reduced so the untainted count minus it does not drop under `MinNodes`. -/
def clampedRemove (opts : scaleOpts) : Int :=
  if (opts.untaintedNodes.length : Int) - opts.nodesDelta < opts.nodeGroupOpts.minNodes then
    (opts.untaintedNodes.length : Int) - opts.nodeGroupOpts.minNodes
  else
    opts.nodesDelta

/-- The tail of `scaleDownTaint` after the clamp: reserve `nodesToRemove`
taints on the fail-safe lock (`beginOk` oracle for `k8s.BeginTaintFailSafe`),
run `taintOldestN`, then release against the actual count (`endOk` oracle
for `k8s.EndTaintFailSafe`). -/
def scaleDownTaintRun (dry : Bool) (taintOk : String → Bool) (maxTaints : Nat)
    (beginOk : Int → Bool) (endOk : Nat → Bool)
    (opts : scaleOpts) (nodesToRemove : Int) : ScaleDownResult :=
  if !beginOk nodesToRemove then
    { count := 0, err := some .failSafeBegin, taint := TaintResult.initial
      planned := some nodesToRemove }
  else
    let tainted := taintOldestN dry taintOk maxTaints opts.untaintedNodes nodesToRemove
    if !endOk tainted.taintedIndices.length then
      { count := tainted.taintedIndices.length, err := some .failSafeEnd
        taint := tainted, planned := some nodesToRemove }
    else
      { count := tainted.taintedIndices.length, err := none
        taint := tainted, planned := some nodesToRemove }

/-- `scaleDownTaint`: clamp the delta against the `MinNodes` floor (aborting
with no mutation when even the clamped value is negative), then taint under
the fail-safe lock. -/
def scaleDownTaint (dry : Bool) (taintOk : String → Bool) (maxTaints : Nat)
    (beginOk : Int → Bool) (endOk : Nat → Bool) (opts : scaleOpts) : ScaleDownResult :=
  if (opts.untaintedNodes.length : Int) - opts.nodesDelta < opts.nodeGroupOpts.minNodes then
    let nodesToRemove := (opts.untaintedNodes.length : Int) - opts.nodeGroupOpts.minNodes
    if nodesToRemove < 0 then
      { count := 0, err := some .belowMinimum, taint := TaintResult.initial, planned := none }
    else
      scaleDownTaintRun dry taintOk maxTaints beginOk endOk opts nodesToRemove
  else
    scaleDownTaintRun dry taintOk maxTaints beginOk endOk opts opts.nodesDelta

/-- Observable outcome of one `ScaleDown` cycle: the Reaper's result,
whether its error was demoted to the warning branch, the Tainter's result,
and the count and error `ScaleDown` itself returns. -/
structure ScaleDownOutcome where
  reaper : ReaperResult
  reaperWarned : Bool
  tainter : ScaleDownResult
  returnedCount : Nat
  returnedErr : Option ScaleErr
deriving Repr, DecidableEq

/-- `ScaleDown`: run the Reaper, demote any Reaper error to a warning, then
run the Tainter and return its result. -/
def ScaleDown (dry deleteOk : Bool) (now : Int) (taintOk : String → Bool)
    (maxTaints : Nat) (beginOk : Int → Bool) (endOk : Nat → Bool)
    (opts : scaleOpts) : ScaleDownOutcome :=
  let removed := TryRemoveTaintedNodes dry deleteOk now opts
  let t := scaleDownTaint dry taintOk maxTaints beginOk endOk opts
  { reaper := removed
    reaperWarned := removed.err.isSome
    tainter := t
    returnedCount := t.count
    returnedErr := t.err }

/-- Three sample nodes with distinct creation times, for concrete runs. -/
def sampleNodes : List Node :=
  [⟨"a", 3⟩, ⟨"b", 1⟩, ⟨"c", 2⟩]

/-- Five untainted nodes, floor of four, requested delta three: the clamp
example of the spec. -/
def optsClamp : scaleOpts :=
  { taintedNodes := []
    untaintedNodes := [⟨"u1", 1⟩, ⟨"u2", 2⟩, ⟨"u3", 3⟩, ⟨"u4", 4⟩, ⟨"u5", 5⟩]
    nodesDelta := 3
    nodeGroupOpts :=
      { name := "g", minNodes := 4
        softDeleteGracePeriod := 300, hardDeleteGracePeriod := 600 } }

/-- Three untainted nodes, floor of five: the abort example of the spec. -/
def optsAbort : scaleOpts :=
  { taintedNodes := []
    untaintedNodes := [⟨"u1", 1⟩, ⟨"u2", 2⟩, ⟨"u3", 3⟩]
    nodesDelta := 1
    nodeGroupOpts :=
      { name := "g", minNodes := 5
        softDeleteGracePeriod := 300, hardDeleteGracePeriod := 600 } }

/-- A sample tainted node with a readable removal-intent timestamp. -/
def sampleTainted : TaintedNode :=
  { name := "t1", taintedTime := some 0, isEmpty := true, cordonOk := true }

/- Helper lemmas shared by the claim theorems. -/

/-- In dry mode one Reaper iteration changes nothing: the cordon-and-batch
branch is guarded by the dry-mode flag. -/
theorem reaperStep_dry (now soft hard : Int) (acc : ReaperResult) (c : TaintedNode) :
    reaperStep true now soft hard acc c = acc := by
  unfold reaperStep
  cases c.taintedTime with
  | none => rfl
  | some t => simp

/-- Folding the dry-mode Reaper step over any candidate list is a no-op. -/
theorem reaperFold_dry (now soft hard : Int) :
    ∀ (l : List TaintedNode) (acc : ReaperResult),
      l.foldl (reaperStep true now soft hard) acc = acc
  | [], _ => rfl
  | c :: l, acc => by
    rw [List.foldl_cons, reaperStep_dry, reaperFold_dry]

/-- C6: with dry mode enabled the Reaper cordons nothing, accumulates an
empty deletion batch, and reports zero deletion requests. -/
theorem tryRemove_dry_no_mutation (deleteOk : Bool) (now : Int) (opts : scaleOpts) :
    TryRemoveTaintedNodes true deleteOk now opts =
      { toBeDeleted := [], cordonCalls := [], deleteRequested := 0, err := none } := by
  simp only [TryRemoveTaintedNodes, reaperFold_dry]
  rfl

/-- C10: `TryRemoveTaintedNodes` always returns a nil error — a backend
delete failure is only logged — and returns the batch length, so the
Orchestrator's reaper-warning branch is never taken. -/
theorem tryRemove_always_nil_error (dry deleteOk : Bool) (now : Int)
    (taintOk : String → Bool) (maxTaints : Nat) (beginOk : Int → Bool)
    (endOk : Nat → Bool) (opts : scaleOpts) :
    (TryRemoveTaintedNodes dry deleteOk now opts).err = none ∧
    (TryRemoveTaintedNodes dry deleteOk now opts).deleteRequested =
      (TryRemoveTaintedNodes dry deleteOk now opts).toBeDeleted.length ∧
    (ScaleDown dry deleteOk now taintOk maxTaints beginOk endOk opts).reaperWarned = false :=
  ⟨rfl, rfl, rfl⟩

/-- C8: `ScaleDown` runs Reaper and Tainter, demotes the Reaper error to a
warning flag, and returns exactly the Tainter's count and error. -/
theorem scaleDown_returns_tainter (dry deleteOk : Bool) (now : Int)
    (taintOk : String → Bool) (maxTaints : Nat) (beginOk : Int → Bool)
    (endOk : Nat → Bool) (opts : scaleOpts) :
    (ScaleDown dry deleteOk now taintOk maxTaints beginOk endOk opts).reaper =
      TryRemoveTaintedNodes dry deleteOk now opts ∧
    (ScaleDown dry deleteOk now taintOk maxTaints beginOk endOk opts).reaperWarned =
      (TryRemoveTaintedNodes dry deleteOk now opts).err.isSome ∧
    (ScaleDown dry deleteOk now taintOk maxTaints beginOk endOk opts).tainter =
      scaleDownTaint dry taintOk maxTaints beginOk endOk opts ∧
    (ScaleDown dry deleteOk now taintOk maxTaints beginOk endOk opts).returnedCount =
      (scaleDownTaint dry taintOk maxTaints beginOk endOk opts).count ∧
    (ScaleDown dry deleteOk now taintOk maxTaints beginOk endOk opts).returnedErr =
      (scaleDownTaint dry taintOk maxTaints beginOk endOk opts).err :=
  ⟨rfl, rfl, rfl, rfl, rfl⟩

/-- C3: for a tainted node with a readable removal-intent timestamp and a
soft grace period strictly below the hard one, the Reaper takes no action
while the elapsed time is within the soft period, acts exactly on empty
nodes between the two periods, and acts unconditionally past the hard
period (a cordon attempt being the observable act of eligibility). -/
theorem reaper_grace_period_eligibility (now t soft hard : Int) (c : TaintedNode)
    (hSH : soft < hard) (ht : c.taintedTime = some t) :
    (now - t ≤ soft →
      reaperStep false now soft hard ReaperResult.initial c = ReaperResult.initial) ∧
    (soft < now - t → now - t ≤ hard →
      ((reaperStep false now soft hard ReaperResult.initial c).cordonCalls = [c.name] ↔
        c.isEmpty = true)) ∧
    (hard < now - t →
      (reaperStep false now soft hard ReaperResult.initial c).cordonCalls = [c.name]) := by
  obtain ⟨nm, tt, ie, co⟩ := c
  simp only at ht
  subst ht
  simp only [reaperStep]
  refine ⟨?_, ?_, ?_⟩
  · intro h
    rw [if_neg (not_lt.mpr h)]
  · intro h1 h2
    rw [if_pos h1]
    cases he : ie with
    | true =>
      rw [if_pos (Or.inl rfl)]
      cases hc : co <;> simp [hc, ReaperResult.initial]
    | false =>
      rw [if_neg (by simp [he]; omega)]
      simp [ReaperResult.initial]
  · intro h
    rw [if_pos (lt_trans hSH h), if_pos (Or.inr h)]
    cases hc : co <;> simp [hc, ReaperResult.initial]

/-- Witness for C3: ten ticks after tainting with soft period three and
hard period seven, the sample empty node is cordoned. -/
theorem reaper_grace_period_eligibility_witness :
    (reaperStep false 10 3 7 ReaperResult.initial sampleTainted).cordonCalls = ["t1"] :=
  (reaper_grace_period_eligibility 10 0 3 7 sampleTainted (by decide) rfl).2.2 (by decide)

/-- `scaleDownTaintRun` stamps the planned count it was handed, whatever
the fail-safe oracles answer. -/
theorem scaleDownTaintRun_planned (dry : Bool) (taintOk : String → Bool)
    (maxTaints : Nat) (beginOk : Int → Bool) (endOk : Nat → Bool)
    (opts : scaleOpts) (ntr : Int) :
    (scaleDownTaintRun dry taintOk maxTaints beginOk endOk opts ntr).planned = some ntr := by
  simp only [scaleDownTaintRun]
  split
  · rfl
  · split <;> rfl

/-- Away from the below-minimum abort, `scaleDownTaint` is the fail-safe
run at the clamped count. -/
theorem scaleDownTaint_eq_run (dry : Bool) (taintOk : String → Bool)
    (maxTaints : Nat) (beginOk : Int → Bool) (endOk : Nat → Bool) (opts : scaleOpts)
    (h : ¬((opts.untaintedNodes.length : Int) - opts.nodesDelta <
            opts.nodeGroupOpts.minNodes ∧
          (opts.untaintedNodes.length : Int) - opts.nodeGroupOpts.minNodes < 0)) :
    scaleDownTaint dry taintOk maxTaints beginOk endOk opts =
      scaleDownTaintRun dry taintOk maxTaints beginOk endOk opts (clampedRemove opts) := by
  simp only [scaleDownTaint, clampedRemove]
  by_cases h1 : (opts.untaintedNodes.length : Int) - opts.nodesDelta <
      opts.nodeGroupOpts.minNodes
  · have h2 : ¬((opts.untaintedNodes.length : Int) - opts.nodeGroupOpts.minNodes < 0) :=
      fun h2 => h ⟨h1, h2⟩
    simp only [if_pos h1, if_neg h2]
  · simp only [if_neg h1]

/-- C2: `scaleDownTaint` keeps the untainted count minus the effective
taint count at or above the `MinNodes` floor: a violating delta is clamped
to the headroom above the floor, and a negative headroom aborts the cycle
with zero tainted nodes and no taint effects. -/
theorem scaleDownTaint_min_floor (dry : Bool) (taintOk : String → Bool)
    (maxTaints : Nat) (beginOk : Int → Bool) (endOk : Nat → Bool) (opts : scaleOpts) :
    ((opts.untaintedNodes.length : Int) - opts.nodesDelta < opts.nodeGroupOpts.minNodes →
      0 ≤ (opts.untaintedNodes.length : Int) - opts.nodeGroupOpts.minNodes →
      (scaleDownTaint dry taintOk maxTaints beginOk endOk opts).planned =
        some ((opts.untaintedNodes.length : Int) - opts.nodeGroupOpts.minNodes)) ∧
    ((opts.untaintedNodes.length : Int) - opts.nodesDelta < opts.nodeGroupOpts.minNodes →
      (opts.untaintedNodes.length : Int) - opts.nodeGroupOpts.minNodes < 0 →
      scaleDownTaint dry taintOk maxTaints beginOk endOk opts =
        { count := 0, err := some .belowMinimum, taint := TaintResult.initial
          planned := none }) ∧
    (∀ p : Int, (scaleDownTaint dry taintOk maxTaints beginOk endOk opts).planned = some p →
      opts.nodeGroupOpts.minNodes ≤ (opts.untaintedNodes.length : Int) - p) := by
  refine ⟨?_, ?_, ?_⟩
  · intro h1 h2
    rw [scaleDownTaint_eq_run dry taintOk maxTaints beginOk endOk opts
      (fun hc => absurd hc.2 (not_lt.mpr h2))]
    rw [scaleDownTaintRun_planned]
    simp only [clampedRemove, if_pos h1]
  · intro h1 h2
    simp only [scaleDownTaint, if_pos h1, if_pos h2]
  · intro p hp
    by_cases h1 : (opts.untaintedNodes.length : Int) - opts.nodesDelta <
        opts.nodeGroupOpts.minNodes
    · by_cases h2 : (opts.untaintedNodes.length : Int) - opts.nodeGroupOpts.minNodes < 0
      · simp only [scaleDownTaint, if_pos h1, if_pos h2] at hp
        exact absurd hp (by simp)
      · rw [scaleDownTaint_eq_run dry taintOk maxTaints beginOk endOk opts
          (fun hc => h2 hc.2), scaleDownTaintRun_planned] at hp
        have hpe : clampedRemove opts = p := by injection hp
        simp only [clampedRemove, if_pos h1] at hpe
        omega
    · rw [scaleDownTaint_eq_run dry taintOk maxTaints beginOk endOk opts
        (fun hc => h1 hc.1), scaleDownTaintRun_planned] at hp
      have hpe : clampedRemove opts = p := by injection hp
      simp only [clampedRemove, if_neg h1] at hpe
      omega

/-- Witness for C2: five untainted nodes, floor four, delta three yield an
effective count of one; three untainted nodes, floor five abort with zero
tainted nodes and no mutation. -/
theorem scaleDownTaint_min_floor_witness :
    (scaleDownTaint false (fun _ => true) 10 (fun _ => true) (fun _ => true)
      optsClamp).planned = some 1 ∧
    scaleDownTaint false (fun _ => true) 10 (fun _ => true) (fun _ => true) optsAbort =
      { count := 0, err := some .belowMinimum, taint := TaintResult.initial
        planned := none } := by
  constructor
  · have h := (scaleDownTaint_min_floor false (fun _ => true) 10 (fun _ => true)
      (fun _ => true) optsClamp).1 (by decide) (by decide)
    exact h.trans (by decide)
  · exact (scaleDownTaint_min_floor false (fun _ => true) 10 (fun _ => true)
      (fun _ => true) optsAbort).2.1 (by decide) (by decide)

/-- C4: when the fail-safe Reserve step fails, `scaleDownTaint` returns
that error with a zero count and performs no taint: the taint effects are
exactly the initial (empty) ones, with zero candidates examined. -/
theorem scaleDownTaint_begin_failure (dry : Bool) (taintOk : String → Bool)
    (maxTaints : Nat) (beginOk : Int → Bool) (endOk : Nat → Bool) (opts : scaleOpts)
    (hNoAbort : ¬((opts.untaintedNodes.length : Int) - opts.nodesDelta <
            opts.nodeGroupOpts.minNodes ∧
          (opts.untaintedNodes.length : Int) - opts.nodeGroupOpts.minNodes < 0))
    (hBegin : beginOk (clampedRemove opts) = false) :
    scaleDownTaint dry taintOk maxTaints beginOk endOk opts =
      { count := 0, err := some .failSafeBegin, taint := TaintResult.initial
        planned := some (clampedRemove opts) } := by
  rw [scaleDownTaint_eq_run dry taintOk maxTaints beginOk endOk opts hNoAbort]
  simp [scaleDownTaintRun, hBegin]

/-- Witness for C4: with a refusing fail-safe lock the clamp example taints
nothing and surfaces the Reserve failure. -/
theorem scaleDownTaint_begin_failure_witness :
    scaleDownTaint false (fun _ => true) 10 (fun _ => false) (fun _ => true) optsClamp =
      { count := 0, err := some .failSafeBegin, taint := TaintResult.initial
        planned := some 1 } := by
  have h := scaleDownTaint_begin_failure false (fun _ => true) 10 (fun _ => false)
    (fun _ => true) optsClamp (by decide) rfl
  exact h.trans (by decide)

/-- C7: when the fail-safe Release step reports a mismatch after tainting,
`scaleDownTaint` still returns the actual tainted count alongside the error
and keeps every taint effect already applied. -/
theorem scaleDownTaint_end_mismatch (dry : Bool) (taintOk : String → Bool)
    (maxTaints : Nat) (beginOk : Int → Bool) (endOk : Nat → Bool) (opts : scaleOpts)
    (hNoAbort : ¬((opts.untaintedNodes.length : Int) - opts.nodesDelta <
            opts.nodeGroupOpts.minNodes ∧
          (opts.untaintedNodes.length : Int) - opts.nodeGroupOpts.minNodes < 0))
    (hBegin : beginOk (clampedRemove opts) = true)
    (hEnd : endOk (taintOldestN dry taintOk maxTaints opts.untaintedNodes
      (clampedRemove opts)).taintedIndices.length = false) :
    scaleDownTaint dry taintOk maxTaints beginOk endOk opts =
      { count := (taintOldestN dry taintOk maxTaints opts.untaintedNodes
          (clampedRemove opts)).taintedIndices.length
        err := some .failSafeEnd
        taint := taintOldestN dry taintOk maxTaints opts.untaintedNodes (clampedRemove opts)
        planned := some (clampedRemove opts) } := by
  rw [scaleDownTaint_eq_run dry taintOk maxTaints beginOk endOk opts hNoAbort]
  simp [scaleDownTaintRun, hBegin, hEnd]

/-- Witness for C7: in the dry clamp example a refusing Release still
returns the one taint performed, with the dry-run effects intact. -/
theorem scaleDownTaint_end_mismatch_witness :
    scaleDownTaint true (fun _ => true) 10 (fun _ => true) (fun _ => false) optsClamp =
      { count := 1, err := some .failSafeEnd
        taint :=
          { taintedIndices := [0], trackerAppends := ["u1"], dryIncrements := 1
            realTaintCalls := [], examined := 1 }
        planned := some 1 } := by
  have h := scaleDownTaint_end_mismatch true (fun _ => true) 10 (fun _ => true)
    (fun _ => false) optsClamp (by decide) rfl rfl
  exact h.trans (by decide)

/-- The ranking has one entry per input node. -/
theorem rank_length (nodes : List Node) : (rank nodes).length = nodes.length := by
  simp [rank, List.length_insertionSort, List.enum_length]

/-- Arithmetic step of the Tainter-walk invariants: one examined candidate
adds one to the examined count and at most one tainted index, so every
invariant transports from the continuation to the whole walk. -/
theorem taintLoop_step (dry : Bool) (taintOk : String → Bool) (maxTaints : Nat)
    (n : Int) (l : List nodeIndexBundle) (acc accNext : TaintResult)
    (hres :
      (taintLoop dry taintOk maxTaints n l accNext).taintedIndices.length +
          accNext.examined ≤
        (taintLoop dry taintOk maxTaints n l accNext).examined +
          accNext.taintedIndices.length ∧
      (accNext.examined ≤ maxTaints →
        (taintLoop dry taintOk maxTaints n l accNext).examined ≤ maxTaints) ∧
      ((accNext.taintedIndices.length : Int) ≤ n →
        ((taintLoop dry taintOk maxTaints n l accNext).taintedIndices.length : Int) ≤ n) ∧
      ((taintLoop dry taintOk maxTaints n l accNext).examined =
          accNext.examined + l.length ∨
        ((taintLoop dry taintOk maxTaints n l accNext).taintedIndices.length : Int) ≥ n ∨
        (taintLoop dry taintOk maxTaints n l accNext).examined ≥ maxTaints))
    (hlen1 : accNext.taintedIndices.length ≤ acc.taintedIndices.length + 1)
    (hlen2 : acc.taintedIndices.length ≤ accNext.taintedIndices.length)
    (hex1 : accNext.examined = acc.examined + 1)
    (hlen : (acc.taintedIndices.length : Int) < n)
    (hex : acc.examined < maxTaints) :
    (taintLoop dry taintOk maxTaints n l accNext).taintedIndices.length +
        acc.examined ≤
      (taintLoop dry taintOk maxTaints n l accNext).examined +
        acc.taintedIndices.length ∧
    (acc.examined ≤ maxTaints →
      (taintLoop dry taintOk maxTaints n l accNext).examined ≤ maxTaints) ∧
    ((acc.taintedIndices.length : Int) ≤ n →
      ((taintLoop dry taintOk maxTaints n l accNext).taintedIndices.length : Int) ≤ n) ∧
    ((taintLoop dry taintOk maxTaints n l accNext).examined =
        acc.examined + (l.length + 1) ∨
      ((taintLoop dry taintOk maxTaints n l accNext).taintedIndices.length : Int) ≥ n ∨
      (taintLoop dry taintOk maxTaints n l accNext).examined ≥ maxTaints) := by
  obtain ⟨h1, h2, h3, h4⟩ := hres
  refine ⟨by omega, fun _ => h2 (by omega), fun _ => h3 (by omega), ?_⟩
  rcases h4 with h | h | h
  · exact Or.inl (by omega)
  · exact Or.inr (Or.inl h)
  · exact Or.inr (Or.inr h)

/-- Invariants of the Tainter walk, for any accumulator: tainted entries
never outpace examined candidates, the examined count respects the scan
ceiling, the tainted count respects the requested count, and the walk ends
only by exhausting the candidates or reaching a stop condition. -/
theorem taintLoop_bounds (dry : Bool) (taintOk : String → Bool) (maxTaints : Nat)
    (n : Int) :
    ∀ (l : List nodeIndexBundle) (acc : TaintResult),
      (taintLoop dry taintOk maxTaints n l acc).taintedIndices.length + acc.examined ≤
        (taintLoop dry taintOk maxTaints n l acc).examined + acc.taintedIndices.length ∧
      (acc.examined ≤ maxTaints →
        (taintLoop dry taintOk maxTaints n l acc).examined ≤ maxTaints) ∧
      ((acc.taintedIndices.length : Int) ≤ n →
        ((taintLoop dry taintOk maxTaints n l acc).taintedIndices.length : Int) ≤ n) ∧
      ((taintLoop dry taintOk maxTaints n l acc).examined = acc.examined + l.length ∨
        ((taintLoop dry taintOk maxTaints n l acc).taintedIndices.length : Int) ≥ n ∨
        (taintLoop dry taintOk maxTaints n l acc).examined ≥ maxTaints)
  | [], acc => by
    simp only [taintLoop, List.length_nil]
    exact ⟨by omega, fun h => h, fun h => h, Or.inl (by omega)⟩
  | b :: l, acc => by
    by_cases hstop : (acc.taintedIndices.length : Int) ≥ n ∨ acc.examined ≥ maxTaints
    · simp only [taintLoop, if_pos hstop]
      rcases hstop with h | h
      · exact ⟨by omega, fun hx => hx, fun hn => hn, Or.inr (Or.inl h)⟩
      · exact ⟨by omega, fun hx => hx, fun hn => hn, Or.inr (Or.inr h)⟩
    · have hlen : (acc.taintedIndices.length : Int) < n :=
        lt_of_not_ge fun h => hstop (Or.inl h)
      have hex : acc.examined < maxTaints :=
        lt_of_not_ge fun h => hstop (Or.inr h)
      simp only [taintLoop, if_neg hstop, List.length_cons]
      cases dry with
      | false =>
        simp only [Bool.not_false, if_true]
        by_cases htk : taintOk b.node.name
        · simp only [if_pos htk]
          exact taintLoop_step false taintOk maxTaints n l acc _
            (taintLoop_bounds false taintOk maxTaints n l _)
            (by simp) (by simp) rfl hlen hex
        · simp only [if_neg htk]
          exact taintLoop_step false taintOk maxTaints n l acc _
            (taintLoop_bounds false taintOk maxTaints n l _)
            (by simp) (by simp) rfl hlen hex
      | true =>
        simp only [Bool.not_true, Bool.false_eq_true, if_false]
        exact taintLoop_step true taintOk maxTaints n l acc _
          (taintLoop_bounds true taintOk maxTaints n l _)
          (by simp) (by simp) rfl hlen hex

/-- C1: with a non-negative requested count the Tainter returns at most
`min n MaximumTaints` tainted indices, examines at most `MaximumTaints`
candidates, and stops exactly by exhausting the ranking, reaching `n`
marked nodes, or reaching the scan ceiling of examined candidates. -/
theorem taintOldestN_bounded (dry : Bool) (taintOk : String → Bool)
    (maxTaints : Nat) (nodes : List Node) (n : Int) (hn : 0 ≤ n) :
    (taintOldestN dry taintOk maxTaints nodes n).taintedIndices.length ≤
      min n.toNat maxTaints ∧
    (taintOldestN dry taintOk maxTaints nodes n).examined ≤ maxTaints ∧
    ((taintOldestN dry taintOk maxTaints nodes n).examined = nodes.length ∨
      ((taintOldestN dry taintOk maxTaints nodes n).taintedIndices.length : Int) ≥ n ∨
      (taintOldestN dry taintOk maxTaints nodes n).examined ≥ maxTaints) := by
  obtain ⟨h1, h2, h3, h4⟩ :=
    taintLoop_bounds dry taintOk maxTaints n (rank nodes) TaintResult.initial
  simp only [TaintResult.initial, List.length_nil] at h1 h2 h3 h4
  have hex := h2 (Nat.zero_le _)
  have hlen := h3 (by exact_mod_cast hn)
  simp only [taintOldestN, TaintResult.initial]
  refine ⟨by omega, hex, ?_⟩
  rcases h4 with h | h | h
  · exact Or.inl (by rw [h, rank_length]; omega)
  · exact Or.inr (Or.inl h)
  · exact Or.inr (Or.inr h)

/-- Witness for C1: three nodes, requested count two, scan ceiling one. -/
theorem taintOldestN_bounded_witness :
    (0 : Int) ≤ 2 ∧
    (taintOldestN false (fun _ => true) 1 sampleNodes 2).taintedIndices.length ≤
      min (2 : Int).toNat 1 :=
  ⟨by decide,
    (taintOldestN_bounded false (fun _ => true) 1 sampleNodes 2 (by decide)).1⟩

/-- In dry mode the walk processes a prefix of the remaining candidates,
appending the original index, the tracker name and the counter in lockstep
and issuing no real taint call. -/
theorem taintLoop_dry_characterization (taintOk : String → Bool) (maxTaints : Nat)
    (n : Int) :
    ∀ (l : List nodeIndexBundle) (acc : TaintResult), ∃ k,
      taintLoop true taintOk maxTaints n l acc =
        { taintedIndices := acc.taintedIndices ++ (l.take k).map nodeIndexBundle.index
          trackerAppends := acc.trackerAppends ++
            (l.take k).map (fun b => b.node.name)
          dryIncrements := acc.dryIncrements + k
          realTaintCalls := acc.realTaintCalls
          examined := acc.examined + k }
  | [], acc => ⟨0, by simp [taintLoop]⟩
  | b :: l, acc => by
    by_cases hstop : (acc.taintedIndices.length : Int) ≥ n ∨ acc.examined ≥ maxTaints
    · refine ⟨0, ?_⟩
      simp [taintLoop, if_pos hstop]
    · obtain ⟨k, hk⟩ := taintLoop_dry_characterization taintOk maxTaints n l
        { acc with
          taintedIndices := acc.taintedIndices ++ [b.index]
          trackerAppends := acc.trackerAppends ++ [b.node.name]
          dryIncrements := acc.dryIncrements + 1
          examined := acc.examined + 1 }
      refine ⟨k + 1, ?_⟩
      simp only [taintLoop, if_neg hstop, Bool.not_true, Bool.false_eq_true, if_false]
      rw [hk]
      simp only [List.take_succ_cons, List.map_cons, TaintResult.mk.injEq]
      refine ⟨?_, ?_, by omega, trivial, by omega⟩ <;> simp [List.append_assoc]

/-- C5: in dry mode `taintOldestN` issues no real taint call; instead some
prefix of the ranking has its names appended to the dry-run tracker, the
dry-run counter incremented once per candidate, and the matching original
indices returned as the tainted set. -/
theorem taintOldestN_dry (taintOk : String → Bool) (maxTaints : Nat)
    (nodes : List Node) (n : Int) : ∃ k,
    taintOldestN true taintOk maxTaints nodes n =
      { taintedIndices := ((rank nodes).take k).map nodeIndexBundle.index
        trackerAppends := ((rank nodes).take k).map (fun b => b.node.name)
        dryIncrements := k
        realTaintCalls := []
        examined := k } := by
  obtain ⟨k, hk⟩ :=
    taintLoop_dry_characterization taintOk maxTaints n (rank nodes) TaintResult.initial
  refine ⟨k, ?_⟩
  simpa [taintOldestN, TaintResult.initial] using hk

/-- C9: the ranking is sorted non-decreasing by creation timestamp, is a
permutation of the index-tagged input, and every entry carries its node's
original position in the input list. -/
theorem rank_sorted_preserves_indices (nodes : List Node) :
    List.Sorted oldestFirst (rank nodes) ∧
    (rank nodes).Perm (nodes.enum.map fun p => ⟨p.2, p.1⟩) ∧
    ∀ b ∈ rank nodes, nodes[b.index]? = some b.node := by
  refine ⟨List.sorted_insertionSort oldestFirst _,
    List.perm_insertionSort oldestFirst _, ?_⟩
  intro b hb
  have hb' : b ∈ nodes.enum.map (fun p => (⟨p.2, p.1⟩ : nodeIndexBundle)) :=
    (List.perm_insertionSort oldestFirst _).mem_iff.mp hb
  obtain ⟨p, hp, hpe⟩ := List.mem_map.mp hb'
  obtain ⟨i, x⟩ := p
  cases hpe
  exact List.mk_mem_enum_iff_getElem?.mp hp

/-- Witness for C9: in the sample ranking the entry for the oldest node
carries index one, which recovers that node in the input list. -/
theorem rank_sorted_preserves_indices_witness :
    sampleNodes[1]? = some ⟨"b", 1⟩ :=
  (rank_sorted_preserves_indices sampleNodes).2.2 ⟨⟨"b", 1⟩, 1⟩ (by decide)

end Escalator
